import Mathlib

/-!
Verification of the pyrakoon Arakoon client protocol engine.

This file gives a shallow embedding, in Lean 4, of the parts of the
pyrakoon source that the checked claims are about:

* the wire codec of `pyrakoon/protocol/types.py` (serializers, and the
  coroutine-style incremental receivers, modelled by the `Recv` tree type);
* the response demultiplexer `Message.receive` of
  `pyrakoon/protocol/messages/base.py` together with the error-code table
  `ERROR_MAP` of `pyrakoon/errors/__init__.py`;
* the retry loop of `ArakoonSocketClient._process`, the master discovery of
  `ArakoonSocketClient.determine_master`, and `build_prologue`
  (`pyrakoon/compat/client/socket.py`, `pyrakoon/protocol/__init__.py`);
* the sequence language of `pyrakoon/sequence/` and the `Sequence` message
  envelope of `pyrakoon/protocol/messages/crud.py`;
* the TLS configuration rule of `pyrakoon/compat/config.py`.

Bytes are modelled as `List Nat` (each entry a byte value); Python byte
strings become such lists.  A receive coroutine that yields `Request(n)`
values and finally a `Result` becomes a `Recv` tree: a `request n k` node
asks for `n` bytes and continues with `k`, a `result` leaf carries the
parsed value, and `fail` stands for an exception raised by the parser.
-/

namespace Pyrakoon

/-- Byte strings: Python `str` values of the wire layer. -/
abbrev Bytes := List Nat

/-- Little-endian encoding of `n` into `k` bytes, low byte first.  This is
`struct.pack` with the `<I`, `<Q`, ... format strings (under the
precondition, enforced by `check`, that the value is in range). -/
def toLE : Nat → Nat → Bytes
  | 0, _ => []
  | k + 1, n => n % 256 :: toLE k (n / 256)

/-- Little-endian decoding of a byte list, low byte first: `struct.unpack`
for the unsigned formats. -/
def fromLE : Bytes → Nat
  | [] => 0
  | b :: rest => b + 256 * fromLE rest

/-- Two's-complement little-endian encoding of a signed integer into `k`
bytes: `struct.pack` with `<b`, `<i`, `<q`. -/
def toLEInt (k : Nat) (v : Int) : Bytes :=
  toLE k (Int.toNat (v % ((2 : Int) ^ (8 * k))))

/-- Two's-complement little-endian decoding of `k` bytes:
`struct.unpack` for the signed formats. -/
def fromLEInt (k : Nat) (bs : Bytes) : Int :=
  if fromLE bs < 2 ^ (8 * k - 1) then (fromLE bs : Int)
  else (fromLE bs : Int) - (2 : Int) ^ (8 * k)

/-- A receive coroutine (`Type.receive` and friends): either a final
`Result`, a raised exception, or a `Request n` for `n` more bytes with a
continuation consuming exactly those bytes. -/
inductive Recv (α : Type) where
  | result : α → Recv α
  | fail : Recv α
  | request : Nat → (Bytes → Recv α) → Recv α

/-- Feed a byte stream to a receiver: each `request n` consumes the next
`n` bytes of the stream (as `utils.read_blocking` does against a socket).
Returns the final value and the unconsumed tail, or `none` when the parser
raised or the stream ran short. -/
def runRecv {α : Type} : Recv α → Bytes → Option (α × Bytes)
  | .result a, s => some (a, s)
  | .fail, _ => none
  | .request n k, s =>
    if n ≤ s.length then runRecv (k (s.take n)) (s.drop n) else none

/-- The requests a receiver issues against a stream, in order: the trace of
`Request(n).count` values.  A request is recorded even when the stream
cannot honour it. -/
def traceRecv {α : Type} : Recv α → Bytes → List Nat
  | .result _, _ => []
  | .fail, _ => []
  | .request n k, s =>
    if n ≤ s.length then n :: traceRecv (k (s.take n)) (s.drop n) else [n]

/-- Drive a sub-receiver to completion, then continue: the
`while isinstance(request, Request): value = yield request; ...` pattern
that every composite `receive` in `types.py` uses to run an inner
receiver. -/
def bindRecv {α β : Type} : Recv α → (α → Recv β) → Recv β
  | .result a, f => f a
  | .fail, _ => .fail
  | .request n k, f => .request n (fun d => bindRecv (k d) f)

/-! ## Wire types (`pyrakoon/protocol/types.py`) -/

/-- Model of `UnsignedInteger.serialize` (via `Type.serialize` and `PACKER.pack`)
for a width of `8 * k` bits. -/
def uintSerialize (k : Nat) (v : Nat) : Bytes := toLE k v

/-- Model of `Type.receive` for an unsigned integer of `8 * k` bits: one request for
the packer size, then unpack. -/
def uintReceive (k : Nat) : Recv Nat :=
  .request k (fun d => .result (fromLE d))

/-- Model of `SignedInteger.serialize` for a width of `8 * k` bits. -/
def sintSerialize (k : Nat) (v : Int) : Bytes := toLEInt k v

/-- Model of `Type.receive` for a signed integer of `8 * k` bits. -/
def sintReceive (k : Nat) : Recv Int :=
  .request k (fun d => .result (fromLEInt k d))

/-- Model of `UnsignedInteger.check`: the value is in `[0, 2^bits - 1]`.  (The
domain `Nat` already excludes negative values, mirroring the
`value < 0` test.) -/
def uintCheck (k : Nat) (v : Nat) : Bool := decide (v ≤ 2 ^ (8 * k) - 1)

/-- Model of `SignedInteger.check`: `abs(value) <= 2^bits / 2 - 1`. -/
def sintCheck (k : Nat) (v : Int) : Bool := decide (v.natAbs ≤ 2 ^ (8 * k) / 2 - 1)

/-- Model of `String.serialize`: `uint32` length prefix, then the raw bytes. -/
def stringSerialize (s : Bytes) : Bytes := uintSerialize 4 s.length ++ s

/-- Model of `String.receive`: drive `UINT32.receive` for the length; when it is 0
yield the empty string at once, otherwise request exactly `length` more
bytes and yield them. -/
def stringReceive : Recv Bytes :=
  bindRecv (uintReceive 4) (fun len =>
    if len = 0 then .result [] else .request len (fun data => .result data))

/-- Model of `Bool.serialize`: one byte, `chr 1` for true and `chr 0` for false. -/
def boolSerialize (b : Bool) : Bytes := if b then [1] else [0]

/-- Model of `Bool.receive`: read one byte; `\x01` is true, `\x00` is false, any
other byte raises `ValueError`. -/
def boolReceive : Recv Bool :=
  .request 1 (fun d =>
    if d = [1] then .result true
    else if d = [0] then .result false
    else .fail)

/-- Model of `Option.serialize`: a `bool` presence flag, then the inner value when
present. -/
def optionSerialize {α : Type} (inner : α → Bytes) : Option α → Bytes
  | none => boolSerialize false
  | some v => boolSerialize true ++ inner v

/-- Model of `Option.receive`: drive `BOOL.receive`; on `False` yield `None`, else
drive the inner receiver and yield its value. -/
def optionReceive {α : Type} (inner : Recv α) : Recv (Option α) :=
  bindRecv boolReceive (fun hasValue =>
    if hasValue then bindRecv inner (fun v => .result (some v))
    else .result none)

/-- Model of `List.serialize`: a `uint32` element count, then every element in
order. -/
def listSerialize {α : Type} (inner : α → Bytes) (l : List α) : Bytes :=
  uintSerialize 4 l.length ++ (l.map inner).flatten

/-- The element loop of `List.receive`: `for idx in xrange(count - 1, -1, -1)`
receives the elements in stream order but stores them at indices
`count - 1` down to `0`; consing each received element onto the
accumulator reproduces that backwards fill. -/
def listReceiveLoop {α : Type} (inner : Recv α) : Nat → List α → Recv (List α)
  | 0, acc => .result acc
  | n + 1, acc => bindRecv inner (fun v => listReceiveLoop inner n (v :: acc))

/-- Model of `List.receive`: drive `UINT32.receive` for the count, then the
backwards element fill. -/
def listReceive {α : Type} (inner : Recv α) : Recv (List α) :=
  bindRecv (uintReceive 4) (fun count => listReceiveLoop inner count [])

/-- Model of `Product.serialize` for two inner types: the serialized fields in
order.  (`Product` of any arity is the n-fold concatenation; two generic
components capture the construction.) -/
def productSerialize {α β : Type} (serA : α → Bytes) (serB : β → Bytes)
    (v : α × β) : Bytes :=
  serA v.1 ++ serB v.2

/-- Model of `Product.receive` for two inner types: drive each field's receiver in
order and tuple the results. -/
def productReceive {α β : Type} (ra : Recv α) (rb : Recv β) : Recv (α × β) :=
  bindRecv ra (fun a => bindRecv rb (fun b => .result (a, b)))

/-- The `Consistency` data model of `pyrakoon/consistency.py`:
`CONSISTENT`, `INCONSISTENT`, or `AtLeast(i)` with an `int` field. -/
inductive ConsistencyV where
  | consistent : ConsistencyV
  | inconsistent : ConsistencyV
  | atLeast : Int → ConsistencyV
  deriving DecidableEq, Repr

/-- Model of `Consistency.check` (types.py): accepts `CONSISTENT`, `INCONSISTENT`,
`None`, and any `AtLeast` instance — the body only tests identity and
`isinstance`, it never inspects `AtLeast.i`.  On the modelled value domain
`Option ConsistencyV` (with `none` for Python `None`) every value is
therefore accepted. -/
def consistencyCheck (_ : Option ConsistencyV) : Bool := true

/-- Model of `Consistency.serialize`: `CONSISTENT` and `None` both become `'\0'`,
`INCONSISTENT` becomes `'\1'`, `AtLeast(i)` becomes `'\2'` followed by the
`int64` encoding of `i`. -/
def consistencySerialize : Option ConsistencyV → Bytes
  | none => [0]
  | some .consistent => [0]
  | some .inconsistent => [1]
  | some (.atLeast i) => 2 :: sintSerialize 8 i

/-- Model of `Consistency.receive`: an `int8` tag, then for tag 2 an `int64`; tags
other than 0, 1, 2 raise `ValueError`.  The receiver never yields `None`:
tag 0 yields `CONSISTENT`. -/
def consistencyReceive : Recv ConsistencyV :=
  bindRecv (sintReceive 1) (fun tag =>
    if tag = 0 then .result .consistent
    else if tag = 1 then .result .inconsistent
    else if tag = 2 then
      bindRecv (sintReceive 8) (fun i => .result (.atLeast i))
    else .fail)

/-! ## Error taxonomy and response demultiplexing
(`pyrakoon/errors/`, `pyrakoon/protocol/messages/base.py`) -/

/-- The error kinds of `pyrakoon/errors/`: one constructor per
`ArakoonError` subclass with a `CODE`, plus `genericUnknown` for the bare
`ArakoonError` raised on a code outside `ERROR_MAP` (it carries the
offending code, which the source embeds in the error text). -/
inductive ErrKind where
  | noMagic | tooManyDeadNodes | noHello | notMaster | notFound
  | wrongCluster | assertionFailed | readOnly | outsideInterval
  | goingDown | notSupported | noLongerMaster | badInput
  | inconsistentRead | maxConnections | unknownFailure
  | genericUnknown : Nat → ErrKind
  deriving DecidableEq, Repr

/-- Model of `ERROR_MAP` (`pyrakoon/errors/__init__.py`): the map from wire error
codes to the `ArakoonError` subclasses that define them.  Built in the
source by scanning the module for classes with a non-`None` `CODE`. -/
def ERROR_MAP (code : Nat) : Option ErrKind :=
  if code = 0x0001 then some .noMagic
  else if code = 0x0002 then some .tooManyDeadNodes
  else if code = 0x0003 then some .noHello
  else if code = 0x0004 then some .notMaster
  else if code = 0x0005 then some .notFound
  else if code = 0x0006 then some .wrongCluster
  else if code = 0x0007 then some .assertionFailed
  else if code = 0x0008 then some .readOnly
  else if code = 0x0009 then some .outsideInterval
  else if code = 0x0010 then some .goingDown
  else if code = 0x0020 then some .notSupported
  else if code = 0x0021 then some .noLongerMaster
  else if code = 0x0026 then some .badInput
  else if code = 0x0080 then some .inconsistentRead
  else if code = 0x00fe then some .maxConnections
  else if code = 0x00ff then some .unknownFailure
  else none

/-- Modelled from the spec: `RESULT_SUCCESS` lives in
`pyrakoon/protocol/communication.py`, which is absent from the sources;
the spec's response framing says the return payload follows "if
`code == 0`", so the constant is 0. -/
def RESULT_SUCCESS : Nat := 0

/-- Model of `Message.receive` (`protocol/messages/base.py`): drive
`UINT32.receive` for the response code; on `RESULT_SUCCESS` drive the
message's `RETURN_TYPE` receiver and yield its value, otherwise drive
`STRING.receive` for the server's error text and raise the exception that
`ERROR_MAP` assigns to the code — constructed with that text verbatim —
or, for a code outside the map, a bare `ArakoonError` carrying the code
and the text. -/
def messageReceive {α : Type} (returnType : Recv α) :
    Recv (Except (ErrKind × Bytes) α) :=
  bindRecv (uintReceive 4) (fun code =>
    if code = RESULT_SUCCESS then
      bindRecv returnType (fun v => .result (.ok v))
    else
      bindRecv stringReceive (fun msg =>
        match ERROR_MAP code with
        | some kind => .result (.error (kind, msg))
        | none => .result (.error (.genericUnknown code, msg))))

/-! ## The retry loop of `ArakoonSocketClient._process`
(`pyrakoon/compat/client/socket.py`) -/

/-- The exceptions that can escape one send/receive attempt inside
`_process`: a protocol error raised by `Message.receive` (`server`), or
one of the client-side errors of `pyrakoon/compat/errors.py`. -/
inductive ProcError where
  | server : ErrKind → ProcError
  | arakoonNoMaster | arakoonNotConnected | sockReadNoBytes
  | sockNotReadable | sockRecvError | sockRecvClosed | sockSendError
  deriving DecidableEq, Repr

/-- The `except (errors.NotMaster, ArakoonNoMaster, ArakoonNotConnected,
ArakoonSockReadNoBytes)` clause of `_process`, with Python subclass
semantics: no other error class in the code base subclasses
`errors.NotMaster`, so exactly these four kinds are caught.  In
particular `errors.NoLongerMaster` subclasses only `ArakoonError` and is
not caught. -/
def caughtByOuterLoop : ProcError → Bool
  | .server .notMaster => true
  | .arakoonNoMaster => true
  | .arakoonNotConnected => true
  | .sockReadNoBytes => true
  | _ => false

/-- The orchestrator state the retry loop mutates: `self.master_id` and
the connection pool (modelled by its set of node-id keys). -/
structure ClientState where
  masterId : Option String
  connections : List String
  deriving DecidableEq, Repr

/-- Model of `backoffPeriod = 0.2` in `_process`. -/
def backoffPeriod : ℚ := 1 / 5

/-- The `while True` loop of `_process`.  Each entry of `attempts` is the
outcome of one send/receive attempt (`_send_to_master` or `_send_message`
followed by driving `message.receive`); an attempt's own duration is
idealised to zero, so the clock `now` advances only by the backoff
sleeps.  On a caught error the loop clears `master_id`, drops every
connection, and — when `retry` holds and the backoff sleep still fits
before `deadline` — sleeps `backoffPeriod * tryCount` and retries;
otherwise it re-raises.  Errors outside the `except` clause propagate
with the state untouched.  `none` means the attempt script ran out while
the loop would have continued. -/
def processLoop {α : Type} (retry : Bool) (deadline : ℚ) :
    ℚ → ℚ → ClientState → List (Except ProcError α) →
    Option (Except ProcError α × ClientState)
  | _, _, _, [] => none
  | tryCount, now, st, attempt :: rest =>
    match attempt with
    | .ok v => some (.ok v, st)
    | .error e =>
      if caughtByOuterLoop e then
        let st' : ClientState := ⟨none, []⟩
        let sleepPeriod := backoffPeriod * tryCount
        if retry ∧ now + sleepPeriod ≤ deadline then
          processLoop retry deadline (tryCount + 1) (now + sleepPeriod) st' rest
        else
          some (.error e, st')
      else
        some (.error e, st)

/-! ## Master discovery (`ArakoonSocketClient.determine_master`) -/

/-- The cluster as `determine_master` observes it:
`env n = none` models `_get_master_id_from_node(n)` raising,
`env n = some none` a node answering `WhoMaster` with no master, and
`env n = some (some m)` a node claiming `m` is master. -/
abbrev MasterEnv := String → Option (Option String)

/-- Model of `_validate_master_id`: `False` for a falsy (empty) id, otherwise ask
the claimed master itself and accept only when it claims itself.  `none`
models the `WhoMaster` round-trip raising. -/
def validateMasterId (env : MasterEnv) (masterId : String) : Option Bool :=
  if masterId = "" then some false
  else
    match env masterId with
    | none => none
    | some other => some (decide (other = some masterId))

/-- The `while self.master_id is None and node_ids` loop of
`determine_master`, over the (shuffled) list of node ids still to try:
query the node; on an exception or a `None` claim move on; accept a
self-claim at once; for a foreign claim run `_validate_master_id` and on
`False` or an exception reset `master_id` to `None` and move on. -/
def determineMasterLoop (env : MasterEnv) : List String → Option String
  | [] => none
  | node :: rest =>
    match env node with
    | none => determineMasterLoop env rest
    | some none => determineMasterLoop env rest
    | some (some m) =>
      if m = node then some m
      else
        match validateMasterId env m with
        | none => determineMasterLoop env rest
        | some true => some m
        | some false => determineMasterLoop env rest

/-- Model of `determine_master`: run the loop, then `if not self.master_id: raise
ArakoonNoMaster` — which also rejects an accepted empty id (`''` is
falsy).  `none` models the `ArakoonNoMaster` raise. -/
def determineMaster (env : MasterEnv) (order : List String) : Option String :=
  match determineMasterLoop env order with
  | some m => if m = "" then none else some m
  | none => none

/-- A three-node cluster observation used to evaluate `determine_master`
concretely: node `a` claims `b` is master, but `b` claims `c`, and every
other query raises. -/
def sampleMasterEnv : MasterEnv := fun n =>
  if n = "a" then some (some "b")
  else if n = "b" then some (some "c")
  else none

/-! ## Prologue (`pyrakoon/protocol/__init__.py`) -/

/-- Model of `Message.MASK`. -/
def MASK : Nat := 0xb1ff0000

/-- Modelled from the spec: `PROTOCOL_VERSION` lives in
`pyrakoon/protocol/communication.py`, which is absent from the sources;
the spec calls it "a fixed integer in the source" whose exact value is a
deployment concern.  The stand-in value 1 is never load-bearing below. -/
def PROTOCOL_VERSION : Nat := 1

/-- A Python value that is either a `str` or a generator of `str` chunks —
the distinction `str.join` is sensitive to. -/
inductive StrOrGen where
  | str : Bytes → StrOrGen
  | gen : List Bytes → StrOrGen

/-- Python 2 `str.join` over a sequence: concatenates `str` items and
raises `TypeError` the moment an item is not a `str` (a generator object
is not). -/
def strJoin : List StrOrGen → Except Unit Bytes
  | [] => .ok []
  | .str b :: rest => (strJoin rest).map (fun t => b ++ t)
  | .gen _ :: _ => .error ()

/-- The chunks yielded by `UINT32.serialize`: a single packed chunk. -/
def uint32SerializeChunks (n : Nat) : List Bytes := [toLE 4 n]

/-- The chunks yielded by `String.serialize`: the `UINT32.serialize`
chunk of the length, then the packed bytes. -/
def stringSerializeChunks (s : Bytes) : List Bytes := [toLE 4 s.length, s]

/-- Model of `build_prologue`: `''.join((UINT32.serialize(Message.MASK),
UINT32.serialize(PROTOCOL_VERSION), STRING.serialize(cluster)))`.  The
three `serialize` calls return generator objects, so the tuple handed to
`str.join` holds generators, not strings. -/
def build_prologue (cluster : Bytes) : Except Unit Bytes :=
  strJoin [.gen (uint32SerializeChunks MASK),
           .gen (uint32SerializeChunks PROTOCOL_VERSION),
           .gen (stringSerializeChunks cluster)]

/-- Modelled from the spec: the prologue bytes the source's docstring and
the spec describe — `uint32 MASK`, `uint32 PROTOCOL_VERSION`, then the
length-prefixed cluster id. -/
def prologueSpec (cluster : Bytes) : Bytes :=
  uintSerialize 4 MASK ++ uintSerialize 4 PROTOCOL_VERSION ++ stringSerialize cluster

/-! ## Sequence language (`pyrakoon/sequence/`) and the `Sequence`
message envelope (`pyrakoon/protocol/messages/crud.py`) -/

/-- The step tree of `pyrakoon/sequence/steps.py` and the nested
`Sequence` container of `pyrakoon/sequence/__init__.py`.  `deletePfx`
models the `DeletePrefix` step (its argument is the key prefix to
delete). -/
inductive SeqStep where
  | set : Bytes → Bytes → SeqStep
  | delete : Bytes → SeqStep
  | assertValue : Bytes → Option Bytes → SeqStep
  | assertExists : Bytes → SeqStep
  | replace : Bytes → Option Bytes → SeqStep
  | deletePfx : Bytes → SeqStep
  | sequence : List SeqStep → SeqStep

mutual

/-- Model of `Step.serialize` / `Sequence.serialize`: a `uint32` tag, then the
step's arguments per its `ARGS` table (tags 1 `Set`, 2 `Delete`, 8
`Assert`, 14 `DeletePrefix`, 15 `AssertExists`, 16 `Replace`); a nested
`Sequence` (tag 5) emits a `uint32` child count and then every child. -/
def stepSerialize : SeqStep → Bytes
  | .set key value => uintSerialize 4 1 ++ stringSerialize key ++ stringSerialize value
  | .delete key => uintSerialize 4 2 ++ stringSerialize key
  | .assertValue key value =>
      uintSerialize 4 8 ++ stringSerialize key ++ optionSerialize stringSerialize value
  | .deletePfx p => uintSerialize 4 14 ++ stringSerialize p
  | .assertExists key => uintSerialize 4 15 ++ stringSerialize key
  | .replace key wanted =>
      uintSerialize 4 16 ++ stringSerialize key ++ optionSerialize stringSerialize wanted
  | .sequence steps =>
      uintSerialize 4 5 ++ uintSerialize 4 steps.length ++ stepsSerialize steps

/-- The `for step in self.steps: for bytes_ in step.serialize()` loop. -/
def stepsSerialize : List SeqStep → Bytes
  | [] => []
  | s :: rest => stepSerialize s ++ stepsSerialize rest

end

/-- The `Sequence`/`SyncedSequence` message of
`protocol/messages/crud.py`: the wrapped payload tree and the `sync` flag
supplied at construction. -/
structure CrudSequence where
  seq : SeqStep
  sync : Bool

/-- Model of `Sequence.__init__` (crud.py): `if len(steps) == 1 and
isinstance(steps[0], sequence.Sequence): self._sequence = steps[0] else:
self._sequence = sequence.Sequence(steps)`. -/
def crudSequenceInit (steps : List SeqStep) (sync : Bool) : CrudSequence :=
  match steps with
  | [SeqStep.sequence l] => ⟨SeqStep.sequence l, sync⟩
  | _ => ⟨SeqStep.sequence steps, sync⟩

/-- Model of `Sequence.serialize` (crud.py): the `uint32` tag
`(0x0010 if not sync else 0x0024) | Message.MASK`, then the serialized
step tree joined into one buffer and wrapped as a single
`STRING.serialize` field. -/
def crudSequenceSerialize (m : CrudSequence) : Bytes :=
  uintSerialize 4 ((if ¬ m.sync then 0x0010 else 0x0024) ||| MASK) ++
    stringSerialize (stepSerialize m.seq)

/-! ## TLS configuration (`pyrakoon/compat/config.py`) -/

/-- Python truthiness of an optional string argument: `None` and `''` are
falsy. -/
def optStrTruthy : Option String → Bool
  | none => false
  | some s => !s.isEmpty

/-- Python truthiness of the optional `(cert_path, key_path)` tuple: any
2-tuple is truthy, `None` is not. -/
def optCertTruthy : Option (String × String) → Bool
  | none => false
  | some _ => true

/-- The TLS fields `ArakoonClientConfig.__init__` stores on success. -/
structure TlsConfig where
  tls : Bool
  tls_ca_cert : Option String
  tls_cert : Option (String × String)
  deriving DecidableEq, Repr

/-- The TLS checks of `ArakoonClientConfig.__init__`, parameterised by
the file system (`isfile` models `os.path.isfile`): raise `ValueError`
when `tls_ca_cert` is truthy while `tls` is false, when `tls_cert` is
truthy while `tls_ca_cert` is not, or when a supplied path is not a
file; otherwise store the fields. -/
def configInit (isfile : String → Bool) (tls : Bool)
    (tls_ca_cert : Option String) (tls_cert : Option (String × String)) :
    Except Unit TlsConfig :=
  if optStrTruthy tls_ca_cert && !tls then .error ()
  else if optCertTruthy tls_cert && !optStrTruthy tls_ca_cert then .error ()
  else if (match tls_ca_cert with
           | some p => !isfile p
           | none => false) then .error ()
  else if (match tls_cert with
           | some (cert, key) => !isfile cert || !isfile key
           | none => false) then .error ()
  else .ok ⟨tls, tls_ca_cert, tls_cert⟩

/-! ## Generic lemmas about the codec machinery -/

/-- A receiver parses back exactly what the serializer produced (for
values the type's `check` accepts), leaving trailing bytes untouched. -/
def RoundTrips {α : Type} (ok : α → Prop) (ser : α → Bytes) (rcv : Recv α) : Prop :=
  ∀ v rest, ok v → runRecv rcv (ser v ++ rest) = some (v, rest)

theorem take_append_length {α : Type} (l r : List α) : (l ++ r).take l.length = l := by
  induction l with
  | nil => rfl
  | cons a t ih => simp [List.take, ih]

theorem drop_append_length {α : Type} (l r : List α) : (l ++ r).drop l.length = r := by
  induction l with
  | nil => rfl
  | cons a t ih => simp [ih]

theorem take_append_of_length {α : Type} (n : Nat) (l r : List α)
    (h : l.length = n) : (l ++ r).take n = l := by
  subst h; exact take_append_length l r

theorem drop_append_of_length {α : Type} (n : Nat) (l r : List α)
    (h : l.length = n) : (l ++ r).drop n = r := by
  subst h; exact drop_append_length l r

theorem runRecv_bindRecv {α β : Type} (r : Recv α) (f : α → Recv β) (s : Bytes) :
    runRecv (bindRecv r f) s =
      (runRecv r s).bind (fun p => runRecv (f p.1) p.2) := by
  induction r generalizing s with
  | result a => rfl
  | fail => rfl
  | request n k ih =>
    simp only [bindRecv, runRecv]
    split
    · exact ih _ _
    · rfl

theorem toLE_length (k n : Nat) : (toLE k n).length = k := by
  induction k generalizing n with
  | zero => rfl
  | succ k ih => simp [toLE, ih]

theorem fromLE_toLE (k n : Nat) (h : n < 2 ^ (8 * k)) : fromLE (toLE k n) = n := by
  induction k generalizing n with
  | zero =>
    simp only [Nat.mul_zero, pow_zero, Nat.lt_one_iff] at h
    simp [toLE, fromLE, h]
  | succ k ih =>
    have hdiv : n / 256 < 2 ^ (8 * k) := by
      have h256 : (0 : Nat) < 256 := by norm_num
      rw [Nat.div_lt_iff_lt_mul h256]
      calc n < 2 ^ (8 * (k + 1)) := h
        _ = 2 ^ (8 * k) * 256 := by ring
    simp [toLE, fromLE, ih _ hdiv, Nat.mod_add_div]

theorem runRecv_uintReceive (k n : Nat) (rest : Bytes) (h : n < 2 ^ (8 * k)) :
    runRecv (uintReceive k) (uintSerialize k n ++ rest) = some (n, rest) := by
  have hlen : (toLE k n).length = k := toLE_length k n
  simp only [uintReceive, uintSerialize, runRecv]
  rw [if_pos (by simp [hlen]),
      take_append_of_length k _ rest hlen,
      drop_append_of_length k _ rest hlen,
      fromLE_toLE k n h]

theorem fromLEInt_toLEInt (k : Nat) (hk : 0 < k) (v : Int)
    (hlo : -(2 ^ (8 * k - 1)) ≤ v) (hhi : v < 2 ^ (8 * k - 1)) :
    fromLEInt k (toLEInt k v) = v := by
  have hk8 : 8 * k - 1 + 1 = 8 * k := by omega
  have hN : (2 : Int) ^ (8 * k) = 2 ^ (8 * k - 1) * 2 := by
    conv_lhs => rw [← hk8]
    rw [pow_succ]
  have hNpos : (0 : Int) < 2 ^ (8 * k) := by positivity
  have hHN : (2 : Int) ^ (8 * k - 1) ≤ 2 ^ (8 * k) := by
    apply pow_le_pow_right₀ (by norm_num) (by omega)
  have hm0 : 0 ≤ v % 2 ^ (8 * k) := Int.emod_nonneg v (by positivity)
  have hmN : v % 2 ^ (8 * k) < 2 ^ (8 * k) := Int.emod_lt_of_pos v hNpos
  have htoNat : ((Int.toNat (v % 2 ^ (8 * k)) : Nat) : Int) = v % 2 ^ (8 * k) :=
    Int.toNat_of_nonneg hm0
  have hbound : Int.toNat (v % 2 ^ (8 * k)) < 2 ^ (8 * k) := by
    have h2 : ((Int.toNat (v % 2 ^ (8 * k)) : Nat) : Int) < ((2 ^ (8 * k) : Nat) : Int) := by
      rw [htoNat]; push_cast; exact hmN
    exact_mod_cast h2
  have hfrom : fromLE (toLE k (Int.toNat (v % 2 ^ (8 * k)))) =
      Int.toNat (v % 2 ^ (8 * k)) := fromLE_toLE k _ hbound
  simp only [fromLEInt, toLEInt, hfrom]
  rcases le_or_lt 0 v with hv | hv
  · have hvmod : v % 2 ^ (8 * k) = v :=
      Int.emod_eq_of_lt hv (lt_of_lt_of_le hhi hHN)
    rw [hvmod]
    have hsmall : Int.toNat v < 2 ^ (8 * k - 1) := by
      have h2 : ((Int.toNat v : Nat) : Int) < ((2 ^ (8 * k - 1) : Nat) : Int) := by
        rw [Int.toNat_of_nonneg hv]; push_cast; exact hhi
      exact_mod_cast h2
    rw [if_pos hsmall, Int.toNat_of_nonneg hv]
  · have hvN : 0 ≤ v + 2 ^ (8 * k) := by omega
    have hvN2 : v + 2 ^ (8 * k) < 2 ^ (8 * k) := by omega
    have hvmod : v % 2 ^ (8 * k) = v + 2 ^ (8 * k) := by
      have h1 : (v + 2 ^ (8 * k) * 1) % 2 ^ (8 * k) = v % 2 ^ (8 * k) :=
        Int.add_mul_emod_self_left v (2 ^ (8 * k)) 1
      rw [mul_one] at h1
      rw [← h1, Int.emod_eq_of_lt hvN hvN2]
    rw [hvmod]
    have hbig : ¬ Int.toNat (v + 2 ^ (8 * k)) < 2 ^ (8 * k - 1) := by
      rw [not_lt]
      have hge : (2 : Int) ^ (8 * k - 1) ≤ v + 2 ^ (8 * k) := by
        rw [hN]; linarith [hlo]
      have h2 : ((2 ^ (8 * k - 1) : Nat) : Int) ≤ ((Int.toNat (v + 2 ^ (8 * k)) : Nat) : Int) := by
        rw [Int.toNat_of_nonneg hvN]; push_cast; exact hge
      exact_mod_cast h2
    rw [if_neg hbig, Int.toNat_of_nonneg hvN]
    omega

theorem runRecv_sintReceive (k : Nat) (hk : 0 < k) (v : Int) (rest : Bytes)
    (hlo : -(2 ^ (8 * k - 1)) ≤ v) (hhi : v < 2 ^ (8 * k - 1)) :
    runRecv (sintReceive k) (sintSerialize k v ++ rest) = some (v, rest) := by
  have hlen : (toLEInt k v).length = k := toLE_length k _
  simp only [sintReceive, sintSerialize, runRecv]
  rw [if_pos (by simp [hlen]),
      take_append_of_length k _ rest hlen,
      drop_append_of_length k _ rest hlen,
      fromLEInt_toLEInt k hk v hlo hhi]

theorem runRecv_stringReceive (s rest : Bytes) (h : s.length < 2 ^ 32) :
    runRecv stringReceive (stringSerialize s ++ rest) = some (s, rest) := by
  have h32 : s.length < 2 ^ (8 * 4) := by norm_num; exact h
  rw [stringReceive, runRecv_bindRecv,
      show stringSerialize s ++ rest = uintSerialize 4 s.length ++ (s ++ rest) by
        simp [stringSerialize],
      runRecv_uintReceive 4 s.length (s ++ rest) h32]
  simp only [Option.some_bind]
  by_cases hs : s.length = 0
  · have hnil : s = [] := List.eq_nil_of_length_eq_zero hs
    subst hnil
    simp [runRecv]
  · rw [if_neg hs]
    simp only [runRecv]
    rw [if_pos (by simp), take_append_of_length s.length s rest rfl,
        drop_append_of_length s.length s rest rfl]

theorem runRecv_boolReceive (b : Bool) (rest : Bytes) :
    runRecv boolReceive (boolSerialize b ++ rest) = some (b, rest) := by
  cases b <;> simp [boolReceive, boolSerialize, runRecv]

theorem runRecv_optionReceive {α : Type} (ok : α → Prop) (ser : α → Bytes)
    (rcv : Recv α) (hrt : RoundTrips ok ser rcv) (v : Option α) (rest : Bytes)
    (hok : ∀ x, v = some x → ok x) :
    runRecv (optionReceive rcv) (optionSerialize ser v ++ rest) = some (v, rest) := by
  cases v with
  | none =>
    rw [optionReceive, runRecv_bindRecv, optionSerialize,
        runRecv_boolReceive false rest]
    simp [runRecv]
  | some x =>
    rw [optionReceive, runRecv_bindRecv, optionSerialize, List.append_assoc,
        runRecv_boolReceive true (ser x ++ rest)]
    simp only [Option.some_bind, if_pos]
    rw [runRecv_bindRecv, hrt x rest (hok x rfl)]
    simp [runRecv]

theorem runRecv_listReceiveLoop {α : Type} (ok : α → Prop) (ser : α → Bytes)
    (rcv : Recv α) (hrt : RoundTrips ok ser rcv) :
    ∀ (l : List α) (acc : List α) (rest : Bytes), (∀ x ∈ l, ok x) →
      runRecv (listReceiveLoop rcv l.length acc) ((l.map ser).flatten ++ rest) =
        some (l.reverse ++ acc, rest)
  | [], acc, rest, _ => by simp [listReceiveLoop, runRecv]
  | x :: t, acc, rest, hall => by
    simp only [List.length_cons, List.map_cons, List.flatten_cons, listReceiveLoop,
      runRecv_bindRecv, List.append_assoc]
    rw [hrt x _ (hall x (List.mem_cons_self x t))]
    simp only [Option.some_bind]
    rw [runRecv_listReceiveLoop ok ser rcv hrt t (x :: acc) rest
        (fun y hy => hall y (List.mem_cons_of_mem x hy))]
    simp

theorem runRecv_listReceive {α : Type} (ok : α → Prop) (ser : α → Bytes)
    (rcv : Recv α) (hrt : RoundTrips ok ser rcv) (l : List α) (rest : Bytes)
    (hlen : l.length < 2 ^ 32) (hall : ∀ x ∈ l, ok x) :
    runRecv (listReceive rcv) (listSerialize ser l ++ rest) = some (l.reverse, rest) := by
  rw [listReceive, runRecv_bindRecv, listSerialize, List.append_assoc,
      runRecv_uintReceive 4 l.length _ (by norm_num; exact hlen)]
  simpa using runRecv_listReceiveLoop ok ser rcv hrt l [] rest hall

theorem runRecv_productReceive {α β : Type} (okA : α → Prop) (okB : β → Prop)
    (serA : α → Bytes) (serB : β → Bytes) (ra : Recv α) (rb : Recv β)
    (hrtA : RoundTrips okA serA ra) (hrtB : RoundTrips okB serB rb)
    (v : α × β) (rest : Bytes) (ha : okA v.1) (hb : okB v.2) :
    runRecv (productReceive ra rb) (productSerialize serA serB v ++ rest) =
      some (v, rest) := by
  rw [productReceive, runRecv_bindRecv, productSerialize, List.append_assoc,
      hrtA v.1 _ ha]
  simp only [Option.some_bind]
  rw [runRecv_bindRecv, hrtB v.2 rest hb]
  simp [runRecv]

theorem runRecv_consistencyReceive (c : Option ConsistencyV) (rest : Bytes)
    (hok : ∀ i, c = some (.atLeast i) → -(2 ^ 63) ≤ i ∧ i < 2 ^ 63) :
    runRecv consistencyReceive (consistencySerialize c ++ rest) =
      some (c.getD .consistent, rest) := by
  have htag : ∀ (b : Nat) (s : Bytes), b < 128 →
      runRecv (sintReceive 1) (b :: s) = some ((b : Int), s) := by
    intro b s hb
    have h1 : (1 : Nat) ≤ (b :: s).length := by simp
    have ht : (b :: s).take 1 = [b] := rfl
    have hd : (b :: s).drop 1 = s := rfl
    have hfv : fromLEInt 1 [b] = (b : Int) := by
      have hb0 : fromLE [b] = b := by simp [fromLE]
      simp only [fromLEInt, hb0]
      rw [if_pos (by norm_num; omega)]
    simp only [sintReceive, runRecv, if_pos h1, ht, hd, hfv]
  match c with
  | none =>
    rw [consistencyReceive, runRecv_bindRecv, consistencySerialize,
        List.cons_append, List.nil_append, htag 0 rest (by norm_num)]
    simp [runRecv]
  | some .consistent =>
    rw [consistencyReceive, runRecv_bindRecv, consistencySerialize,
        List.cons_append, List.nil_append, htag 0 rest (by norm_num)]
    simp [runRecv]
  | some .inconsistent =>
    rw [consistencyReceive, runRecv_bindRecv, consistencySerialize,
        List.cons_append, List.nil_append, htag 1 rest (by norm_num)]
    simp [runRecv]
  | some (.atLeast i) =>
    obtain ⟨hlo, hhi⟩ := hok i rfl
    rw [consistencyReceive, runRecv_bindRecv, consistencySerialize,
        List.cons_append, htag 2 _ (by norm_num)]
    simp only [Option.some_bind]
    norm_num
    rw [runRecv_bindRecv,
        runRecv_sintReceive 8 (by norm_num) i rest (by norm_num; exact hlo)
          (by norm_num; exact hhi)]
    simp [runRecv]

/-! ## Lemmas about the response demultiplexer -/

theorem messageReceive_success {α : Type} (rt : Recv α) (payload rest : Bytes)
    (v : α) (hrun : runRecv rt payload = some (v, rest)) :
    runRecv (messageReceive rt) (uintSerialize 4 0 ++ payload) =
      some (.ok v, rest) := by
  rw [messageReceive, runRecv_bindRecv, runRecv_uintReceive 4 0 payload (by norm_num)]
  simp only [Option.some_bind]
  split
  · rw [runRecv_bindRecv, hrun]
    simp [runRecv]
  · next h => exact absurd rfl h

theorem messageReceive_error {α : Type} (rt : Recv α) (code : Nat)
    (msg rest : Bytes) (hcode : code ≠ 0) (hcode32 : code < 2 ^ 32)
    (hmsg : msg.length < 2 ^ 32) :
    runRecv (messageReceive rt)
        (uintSerialize 4 code ++ (stringSerialize msg ++ rest)) =
      some (.error ((ERROR_MAP code).getD (.genericUnknown code), msg), rest) := by
  rw [messageReceive, runRecv_bindRecv,
      runRecv_uintReceive 4 code _ (by norm_num; exact hcode32)]
  simp only [Option.some_bind, RESULT_SUCCESS]
  rw [if_neg hcode, runRecv_bindRecv, runRecv_stringReceive msg rest hmsg]
  simp only [Option.some_bind]
  cases hmap : ERROR_MAP code with
  | some kind => simp [hmap, runRecv]
  | none => simp [hmap, runRecv]

/-! ## Lemmas about the retry loop -/

theorem processLoop_ok {α : Type} (retry : Bool) (deadline tryCount now : ℚ)
    (st : ClientState) (v : α) (rest : List (Except ProcError α)) :
    processLoop retry deadline tryCount now st (.ok v :: rest) = some (.ok v, st) :=
  rfl

theorem processLoop_caught {α : Type} (retry : Bool) (deadline tryCount now : ℚ)
    (st : ClientState) (e : ProcError) (rest : List (Except ProcError α))
    (he : caughtByOuterLoop e = true) :
    processLoop retry deadline tryCount now st (.error e :: rest) =
      if retry ∧ now + backoffPeriod * tryCount ≤ deadline then
        processLoop retry deadline (tryCount + 1) (now + backoffPeriod * tryCount)
          ⟨none, []⟩ rest
      else some (.error e, ⟨none, []⟩) := by
  simp [processLoop, he]

theorem processLoop_uncaught {α : Type} (retry : Bool) (deadline tryCount now : ℚ)
    (st : ClientState) (e : ProcError) (rest : List (Except ProcError α))
    (he : caughtByOuterLoop e = false) :
    processLoop retry deadline tryCount now st (.error e :: rest) =
      some (.error e, st) := by
  simp [processLoop, he]

theorem caughtByOuterLoop_iff (e : ProcError) :
    caughtByOuterLoop e = true ↔
      e = .server .notMaster ∨ e = .arakoonNoMaster ∨
      e = .arakoonNotConnected ∨ e = .sockReadNoBytes := by
  cases e with
  | server k => cases k <;> simp [caughtByOuterLoop]
  | _ => simp [caughtByOuterLoop]

/-! ## Lemmas about master discovery -/

theorem determineMasterLoop_not_claimed (env : MasterEnv) (B : String)
    (hB : env B ≠ some (some B)) :
    ∀ order, determineMasterLoop env order ≠ some B := by
  intro order
  induction order with
  | nil => simp [determineMasterLoop]
  | cons node rest ih =>
    simp only [determineMasterLoop]
    cases henv : env node with
    | none => exact ih
    | some claimed =>
      cases claimed with
      | none => exact ih
      | some m =>
        dsimp only
        by_cases hm : m = node
        · rw [if_pos hm]
          intro hcontra
          have hmB : m = B := by simpa using hcontra
          have hnodeB : node = B := hm.symm.trans hmB
          exact hB (hnodeB ▸ (hm ▸ henv))
        · rw [if_neg hm]
          cases hval : validateMasterId env m with
          | none => exact ih
          | some b =>
            cases b with
            | false => exact ih
            | true =>
              intro hcontra
              have hmB : m = B := by simpa using hcontra
              rw [validateMasterId] at hval
              by_cases hme : m = ""
              · simp [hme] at hval
              · rw [if_neg hme] at hval
                cases henvm : env m with
                | none => rw [henvm] at hval; exact Option.noConfusion hval
                | some other =>
                  rw [henvm] at hval
                  have hother : other = some m := by
                    have hdec := Option.some.inj hval
                    exact of_decide_eq_true hdec
                  rw [hmB] at henvm hother
                  exact hB (by rw [henvm, hother])

theorem determineMaster_step (env : MasterEnv) (A B : String)
    (rest : List String) (hne : B ≠ A) (hA : env A = some (some B))
    (hB : env B ≠ some (some B)) :
    determineMaster env (A :: rest) = determineMaster env rest := by
  have hloop : determineMasterLoop env (A :: rest) = determineMasterLoop env rest := by
    simp only [determineMasterLoop, hA]
    rw [if_neg (fun h => hne h)]
    rw [validateMasterId]
    by_cases hBe : B = ""
    · rw [if_pos hBe]
    · rw [if_neg hBe]
      cases henvB : env B with
      | none => rfl
      | some other =>
        have hother : other ≠ some B := fun h => hB (by rw [henvB, h])
        dsimp only
        rw [decide_eq_false hother]
  rw [determineMaster, determineMaster, hloop]

theorem determineMasterLoop_exhausted (env : MasterEnv) :
    ∀ order, (∀ n ∈ order, ∀ m, env n = some (some m) →
        m ≠ n ∧ env m ≠ some (some m)) →
      determineMasterLoop env order = none := by
  intro order
  induction order with
  | nil => intro _; rfl
  | cons node rest ih =>
    intro hall
    have htail : ∀ n ∈ rest, ∀ m, env n = some (some m) →
        m ≠ n ∧ env m ≠ some (some m) :=
      fun n hn => hall n (List.mem_cons_of_mem node hn)
    simp only [determineMasterLoop]
    cases henv : env node with
    | none => exact ih htail
    | some claimed =>
      cases claimed with
      | none => exact ih htail
      | some m =>
        obtain ⟨hmn, hmm⟩ := hall node (List.mem_cons_self node rest) m henv
        dsimp only
        rw [if_neg hmn]
        rw [validateMasterId]
        by_cases hme : m = ""
        · rw [if_pos hme]; exact ih htail
        · rw [if_neg hme]
          cases henvm : env m with
          | none => exact ih htail
          | some other =>
            have hother : other ≠ some m := fun h => hmm (by rw [henvm, h])
            dsimp only
            rw [decide_eq_false hother]
            exact ih htail

theorem traceRecv_request {α : Type} (n : Nat) (k : Bytes → Recv α)
    (l rest : Bytes) (h : l.length = n) :
    traceRecv (.request n k) (l ++ rest) = n :: traceRecv (k l) rest := by
  simp only [traceRecv]
  rw [if_pos (by simp [h]), take_append_of_length n l rest h,
      drop_append_of_length n l rest h]

theorem runRecv_request {α : Type} (n : Nat) (k : Bytes → Recv α)
    (l rest : Bytes) (h : l.length = n) :
    runRecv (.request n k) (l ++ rest) = runRecv (k l) rest := by
  simp only [runRecv]
  rw [if_pos (by simp [h]), take_append_of_length n l rest h,
      drop_append_of_length n l rest h]

/-! ## Claim theorems -/

/-- Claim C1, counterexample to the claim as stated: the list wire type
does not preserve order under serialize-then-receive — the two-element
`uint32` list `[0, 1]` parses back as `[1, 0]` (the element loop of
`List.receive` fills indices `count-1` down to `0`); moreover the
consistency value `None`, accepted by `Consistency.check`, parses back as
`CONSISTENT` rather than as itself. -/
theorem claim_C1_counterexample :
    runRecv (listReceive (uintReceive 4))
        (listSerialize (uintSerialize 4) [0, 1] ++ []) = some ([1, 0], [])
  ∧ ([1, 0] : List Nat) ≠ [0, 1]
  ∧ consistencyCheck none = true
  ∧ runRecv consistencyReceive (consistencySerialize none ++ []) =
      some (ConsistencyV.consistent, []) := by
  refine ⟨by decide, by decide, rfl, by decide⟩

/-- Claim C1 (amended): serialize-then-receive is the identity (with the
trailing stream preserved) for the string, unsigned- and signed-integer,
bool, option and product wire types, on every value their `check` accepts
(strings of wire-encodable length, integers within the width the
serializer can pack); for `list(T)` the parsed list holds the elements in
REVERSE serialization order; for the consistency type every value other
than `None` round-trips (with `AtLeast.i` within `int64` packing range),
while `None` parses back as `CONSISTENT`. -/
theorem claim_C1_roundtrip :
    RoundTrips (fun s : Bytes => s.length < 2 ^ 32) stringSerialize stringReceive
  ∧ (∀ k : Nat, RoundTrips (fun v => uintCheck k v = true)
      (uintSerialize k) (uintReceive k))
  ∧ (∀ k : Nat, 0 < k → RoundTrips (fun v => sintCheck k v = true)
      (sintSerialize k) (sintReceive k))
  ∧ RoundTrips (fun _ : Bool => True) boolSerialize boolReceive
  ∧ (∀ (α : Type) (ok : α → Prop) (ser : α → Bytes) (rcv : Recv α),
      RoundTrips ok ser rcv →
      RoundTrips (fun v : Option α => ∀ x, v = some x → ok x)
        (optionSerialize ser) (optionReceive rcv))
  ∧ (∀ (α β : Type) (okA : α → Prop) (okB : β → Prop)
      (serA : α → Bytes) (serB : β → Bytes) (ra : Recv α) (rb : Recv β),
      RoundTrips okA serA ra → RoundTrips okB serB rb →
      RoundTrips (fun v : α × β => okA v.1 ∧ okB v.2)
        (productSerialize serA serB) (productReceive ra rb))
  ∧ (∀ (α : Type) (ok : α → Prop) (ser : α → Bytes) (rcv : Recv α),
      RoundTrips ok ser rcv →
      ∀ (l : List α) (rest : Bytes), l.length < 2 ^ 32 → (∀ x ∈ l, ok x) →
        runRecv (listReceive rcv) (listSerialize ser l ++ rest) =
          some (l.reverse, rest))
  ∧ (∀ (c : Option ConsistencyV) (rest : Bytes),
      (∀ i, c = some (.atLeast i) → -(2 ^ 63) ≤ i ∧ i < 2 ^ 63) →
      runRecv consistencyReceive (consistencySerialize c ++ rest) =
        some (c.getD .consistent, rest)) := by
  refine ⟨?_, ?_, ?_, ?_, ?_, ?_, ?_, ?_⟩
  · exact fun s rest h => runRecv_stringReceive s rest h
  · intro k v rest h
    have hb : v ≤ 2 ^ (8 * k) - 1 := of_decide_eq_true h
    have hp : 0 < 2 ^ (8 * k) := Nat.pos_pow_of_pos _ (by norm_num)
    exact runRecv_uintReceive k v rest (by omega)
  · intro k hk v rest h
    have hb : v.natAbs ≤ 2 ^ (8 * k) / 2 - 1 := of_decide_eq_true h
    have hk8 : 8 * k - 1 + 1 = 8 * k := by omega
    have hpow : 2 ^ (8 * k) = 2 * 2 ^ (8 * k - 1) := by
      conv_lhs => rw [← hk8]
      rw [pow_succ]
      ring
    have hpos : 0 < 2 ^ (8 * k - 1) := Nat.pos_pow_of_pos _ (by norm_num)
    have hcast : ((2 ^ (8 * k - 1) : Nat) : Int) = 2 ^ (8 * k - 1) := by push_cast; ring
    exact runRecv_sintReceive k hk v rest (by omega) (by omega)
  · exact fun b rest _ => runRecv_boolReceive b rest
  · exact fun α ok ser rcv hrt v rest hok =>
      runRecv_optionReceive ok ser rcv hrt v rest hok
  · exact fun α β okA okB serA serB ra rb hrtA hrtB v rest hok =>
      runRecv_productReceive okA okB serA serB ra rb hrtA hrtB v rest hok.1 hok.2
  · exact fun α ok ser rcv hrt l rest hlen hall =>
      runRecv_listReceive ok ser rcv hrt l rest hlen hall
  · exact fun c rest hok => runRecv_consistencyReceive c rest hok

/-- Claim C1 witness: the amended round-trip law evaluated at concrete
values of each wire type. -/
theorem claim_C1_witness :
    runRecv stringReceive (stringSerialize [7, 8] ++ [9]) = some ([7, 8], [9])
  ∧ runRecv (uintReceive 4) (uintSerialize 4 300 ++ []) = some (300, [])
  ∧ runRecv (sintReceive 8) (sintSerialize 8 (-5) ++ []) = some (-5, [])
  ∧ runRecv boolReceive (boolSerialize true ++ []) = some (true, [])
  ∧ runRecv (optionReceive boolReceive)
      (optionSerialize boolSerialize (some false) ++ []) = some (some false, [])
  ∧ runRecv (productReceive boolReceive boolReceive)
      (productSerialize boolSerialize boolSerialize (true, false) ++ []) =
        some ((true, false), [])
  ∧ runRecv (listReceive (uintReceive 4))
      (listSerialize (uintSerialize 4) [1, 2] ++ []) = some ([2, 1], [])
  ∧ runRecv consistencyReceive
      (consistencySerialize (some (.atLeast 3)) ++ []) =
        some (ConsistencyV.atLeast 3, []) := by
  refine ⟨claim_C1_roundtrip.1 [7, 8] [9] (by norm_num),
    claim_C1_roundtrip.2.1 4 300 [] (by decide),
    claim_C1_roundtrip.2.2.1 8 (by norm_num) (-5) [] (by decide),
    claim_C1_roundtrip.2.2.2.1 true [] trivial,
    claim_C1_roundtrip.2.2.2.2.1 Bool (fun _ => True) boolSerialize boolReceive
      (fun b rest _ => runRecv_boolReceive b rest) (some false) []
      (fun _ _ => trivial),
    claim_C1_roundtrip.2.2.2.2.2.1 Bool Bool (fun _ => True) (fun _ => True)
      boolSerialize boolSerialize boolReceive boolReceive
      (fun b rest _ => runRecv_boolReceive b rest)
      (fun b rest _ => runRecv_boolReceive b rest) (true, false) []
      ⟨trivial, trivial⟩,
    claim_C1_roundtrip.2.2.2.2.2.2.1 Nat (fun v => uintCheck 4 v = true)
      (uintSerialize 4) (uintReceive 4) (claim_C1_roundtrip.2.1 4) [1, 2] []
      (by norm_num) (by decide),
    claim_C1_roundtrip.2.2.2.2.2.2.2 (some (.atLeast 3)) [] ?_⟩
  intro i hi
  have h1 : ConsistencyV.atLeast 3 = ConsistencyV.atLeast i := by
    injection hi
  have h2 : (3 : Int) = i := by injection h1
  subst h2
  exact ⟨by norm_num, by norm_num⟩

/-- Claim C2: after the `uint32` response code, code 0 yields the
message's declared return type; a nonzero code in `ERROR_MAP` yields the
mapped error kind carrying the server's message verbatim; a nonzero code
outside the map yields the generic unknown-failure error carrying both
the code and the message. -/
theorem claim_C2_response_demultiplexing {α : Type} (rt : Recv α) (code : Nat)
    (payload msg rest : Bytes) (v : α) (kind : ErrKind) :
    (code = RESULT_SUCCESS → runRecv rt payload = some (v, rest) →
      runRecv (messageReceive rt) (uintSerialize 4 code ++ payload) =
        some (.ok v, rest))
  ∧ (code ≠ 0 → code < 2 ^ 32 → msg.length < 2 ^ 32 →
      ERROR_MAP code = some kind →
      runRecv (messageReceive rt)
          (uintSerialize 4 code ++ (stringSerialize msg ++ rest)) =
        some (.error (kind, msg), rest))
  ∧ (code ≠ 0 → code < 2 ^ 32 → msg.length < 2 ^ 32 →
      ERROR_MAP code = none →
      runRecv (messageReceive rt)
          (uintSerialize 4 code ++ (stringSerialize msg ++ rest)) =
        some (.error (.genericUnknown code, msg), rest)) := by
  refine ⟨?_, ?_, ?_⟩
  · intro h0 hrun
    have hc : code = 0 := h0
    subst hc
    exact messageReceive_success rt payload rest v hrun
  · intro h0 h32 hm hmap
    have h := messageReceive_error rt code msg rest h0 h32 hm
    rw [hmap] at h
    simpa using h
  · intro h0 h32 hm hmap
    have h := messageReceive_error rt code msg rest h0 h32 hm
    rw [hmap] at h
    simpa using h

/-- Claim C2 witness: the demultiplexer evaluated on a success response,
a `NotFound` (0x05) response, and an unmapped code 0x42 response. -/
theorem claim_C2_witness :
    runRecv (messageReceive (uintReceive 4))
        (uintSerialize 4 0 ++ uintSerialize 4 7) = some (.ok 7, [])
  ∧ runRecv (messageReceive (uintReceive 4))
        (uintSerialize 4 5 ++ (stringSerialize [97] ++ [])) =
      some (.error (.notFound, [97]), [])
  ∧ runRecv (messageReceive (uintReceive 4))
        (uintSerialize 4 66 ++ (stringSerialize [98] ++ [])) =
      some (.error (.genericUnknown 66, [98]), []) :=
  ⟨(claim_C2_response_demultiplexing (uintReceive 4) 0 (uintSerialize 4 7)
      [] [] 7 .notFound).1 rfl (by decide),
   (claim_C2_response_demultiplexing (uintReceive 4) 5 [] [97] [] 0
      .notFound).2.1 (by decide) (by decide) (by decide) (by decide),
   (claim_C2_response_demultiplexing (uintReceive 4) 66 [] [98] [] 0
      .notFound).2.2 (by decide) (by decide) (by decide) (by decide)⟩

/-- Claim C3, counterexample to the claim as stated: with `retry = true`
and an ample deadline, a `NoLongerMaster` failure propagates at once and
leaves `master_id` and the connection pool untouched — it is not in the
`except` clause of `_process` — whereas an otherwise identical run
failing with `NotMaster` is retried to success with the state cleared. -/
theorem claim_C3_counterexample :
    processLoop true 60 0 0 ⟨some "m", ["m"]⟩
        [Except.error (ProcError.server .noLongerMaster), Except.ok (42 : Nat)] =
      some (.error (.server .noLongerMaster), ⟨some "m", ["m"]⟩)
  ∧ processLoop true 60 0 0 ⟨some "m", ["m"]⟩
        [Except.error (ProcError.server .notMaster), Except.ok (42 : Nat)] =
      some (.ok 42, ⟨none, []⟩) := by
  constructor
  · rfl
  · rw [processLoop_caught true 60 0 0 ⟨some "m", ["m"]⟩ (.server .notMaster)
        [Except.ok 42] rfl,
      if_pos ⟨rfl, by norm_num [backoffPeriod]⟩]
    exact processLoop_ok true 60 (0 + 1) (0 + backoffPeriod * 0) ⟨none, []⟩ 42 []

/-- Claim C3 (amended): the outer retry loop of `_process` catches
exactly `NotMaster`, `ArakoonNoMaster`, `ArakoonNotConnected` and the
zero-byte read error; on those it clears `master_id`, drops every
connection, and retries after the linear backoff sleep while `retry`
holds and the deadline is not exceeded (re-raising, with the state still
cleared, otherwise).  `NoLongerMaster` and every other error kind
propagate directly with the state untouched. -/
theorem claim_C3_retry_taxonomy {α : Type} (retry : Bool)
    (deadline tryCount now : ℚ) (st : ClientState) (e : ProcError)
    (rest : List (Except ProcError α)) :
    (caughtByOuterLoop e = true ↔
      e = .server .notMaster ∨ e = .arakoonNoMaster ∨
      e = .arakoonNotConnected ∨ e = .sockReadNoBytes)
  ∧ caughtByOuterLoop (.server .noLongerMaster) = false
  ∧ (caughtByOuterLoop e = true →
      processLoop retry deadline tryCount now st (.error e :: rest) =
        if retry ∧ now + backoffPeriod * tryCount ≤ deadline then
          processLoop retry deadline (tryCount + 1)
            (now + backoffPeriod * tryCount) ⟨none, []⟩ rest
        else some (.error e, ⟨none, []⟩))
  ∧ (caughtByOuterLoop e = false →
      processLoop retry deadline tryCount now st (.error e :: rest) =
        some (.error e, st)) :=
  ⟨caughtByOuterLoop_iff e, rfl,
   fun he => processLoop_caught retry deadline tryCount now st e rest he,
   fun he => processLoop_uncaught retry deadline tryCount now st e rest he⟩

/-- Claim C3 witness: the amended retry characterisation evaluated on a
caught (`NotMaster`) and an uncaught (`NoLongerMaster`) first attempt. -/
theorem claim_C3_witness :
    processLoop true 60 0 0 ⟨some "m", ["m"]⟩
        (.error (.server .notMaster) :: [Except.ok (42 : Nat)]) =
      (if (true : Bool) ∧ (0 : ℚ) + backoffPeriod * 0 ≤ 60 then
        processLoop true 60 (0 + 1) ((0 : ℚ) + backoffPeriod * 0) ⟨none, []⟩
          [Except.ok (42 : Nat)]
      else some (.error (.server .notMaster), ⟨none, []⟩))
  ∧ processLoop true 60 0 0 ⟨some "m", ["m"]⟩
        (.error (.server .noLongerMaster) :: [Except.ok (42 : Nat)]) =
      some (.error (.server .noLongerMaster), ⟨some "m", ["m"]⟩) :=
  ⟨(claim_C3_retry_taxonomy true 60 0 0 ⟨some "m", ["m"]⟩
      (.server .notMaster) [Except.ok (42 : Nat)]).2.2.1 rfl,
   (claim_C3_retry_taxonomy true 60 0 0 ⟨some "m", ["m"]⟩
      (.server .noLongerMaster) [Except.ok (42 : Nat)]).2.2.2 rfl⟩

/-- Claim C4: during discovery, when node `A` claims `B ≠ A` is master
but `B` does not claim itself (it names another node, reports no master,
or the validating `WhoMaster` query raises), `A`'s claim is discarded and
discovery continues with the remaining nodes; the discovered master can
never be such a `B`; and when no node yields a validated master the
discovery returns no master (the `ArakoonNoMaster` raise). -/
theorem claim_C4_master_validation (env : MasterEnv) (A B : String)
    (rest : List String) (hne : B ≠ A) (hA : env A = some (some B))
    (hB : env B ≠ some (some B)) :
    determineMaster env (A :: rest) = determineMaster env rest
  ∧ (∀ order, determineMaster env order ≠ some B)
  ∧ (∀ order, (∀ n ∈ order, ∀ m, env n = some (some m) →
        m ≠ n ∧ env m ≠ some (some m)) → determineMaster env order = none) := by
  refine ⟨determineMaster_step env A B rest hne hA hB, ?_, ?_⟩
  · intro order
    rw [determineMaster]
    cases hloop : determineMasterLoop env order with
    | none => simp
    | some m =>
      have hm := determineMasterLoop_not_claimed env B hB order
      rw [hloop] at hm
      dsimp only
      by_cases hme : m = ""
      · simp [hme]
      · rw [if_neg hme]
        exact hm
  · intro order hall
    rw [determineMaster, determineMasterLoop_exhausted env order hall]

/-- Claim C4 witness: in `sampleMasterEnv` (node `a` claims `b`, `b`
claims `c`), querying `a` first is the same as skipping it, `b` is never
accepted as master, and the full discovery ends with no master. -/
theorem claim_C4_witness :
    determineMaster sampleMasterEnv ["a", "b"] = determineMaster sampleMasterEnv ["b"]
  ∧ determineMaster sampleMasterEnv ["a", "b"] ≠ some "b"
  ∧ determineMaster sampleMasterEnv ["a", "b"] = none := by
  have h := claim_C4_master_validation sampleMasterEnv "a" "b" ["b"]
    (by decide) (by decide) (by decide)
  refine ⟨h.1, h.2.1 ["a", "b"], h.2.2 ["a", "b"] ?_⟩
  intro n hn m hm
  have hn2 : n = "a" ∨ n = "b" := by simpa using hn
  rcases hn2 with rfl | rfl
  · have ha : sampleMasterEnv "a" = some (some "b") := by decide
    rw [ha] at hm
    obtain rfl : "b" = m := Option.some.inj (Option.some.inj hm)
    exact ⟨by decide, by decide⟩
  · have hb2 : sampleMasterEnv "b" = some (some "c") := by decide
    rw [hb2] at hm
    obtain rfl : "c" = m := Option.some.inj (Option.some.inj hm)
    exact ⟨by decide, by decide⟩

/-- Claim C5 (code bug): `build_prologue` never produces the prologue
bytes — the tuple it hands to `str.join` holds the three generator
objects returned by the `serialize` calls, not strings, so `join` raises
`TypeError` for every cluster id instead of returning
`uint32 MASK ++ uint32 PROTOCOL_VERSION ++ string cluster_id` as its own
docstring (and the spec) promise. -/
theorem claim_C5_build_prologue_raises (cluster : Bytes) :
    build_prologue cluster = .error ()
  ∧ prologueSpec cluster =
      uintSerialize 4 MASK ++ uintSerialize 4 PROTOCOL_VERSION ++
        stringSerialize cluster :=
  ⟨rfl, rfl⟩

/-- Claim C6: the `Sequence`/`SyncedSequence` message serializes as a
32-bit tag — `0x0010 | 0xB1FF0000 = 0xB1FF0010` when the construction
flag `sync` is false, `0x0024 | 0xB1FF0000 = 0xB1FF0024` when it is true
— followed by the serialized step tree wrapped as one length-prefixed
string field; flipping `sync` changes nothing after the tag. -/
theorem claim_C6_sequence_envelope (steps : List SeqStep) (sync : Bool) :
    crudSequenceSerialize (crudSequenceInit steps sync) =
      uintSerialize 4 (if sync then 0xb1ff0024 else 0xb1ff0010) ++
        (uintSerialize 4 (stepSerialize (crudSequenceInit steps sync).seq).length ++
          stepSerialize (crudSequenceInit steps sync).seq)
  ∧ (crudSequenceSerialize (crudSequenceInit steps true)).drop 4 =
      (crudSequenceSerialize (crudSequenceInit steps false)).drop 4 := by
  have htagf : ((if ¬ false then 0x0010 else 0x0024) ||| MASK : Nat) = 0xb1ff0010 := by
    decide
  have htagt : ((if ¬ true then 0x0010 else 0x0024) ||| MASK : Nat) = 0xb1ff0024 := by
    decide
  have hseq : ∀ s1 s2 : Bool,
      (crudSequenceInit steps s1).seq = (crudSequenceInit steps s2).seq := by
    intro s1 s2
    unfold crudSequenceInit
    split
    · rfl
    · rfl
  have hsync : ∀ b : Bool, (crudSequenceInit steps b).sync = b := by
    intro b
    unfold crudSequenceInit
    split
    · rfl
    · rfl
  constructor
  · rw [crudSequenceSerialize, stringSerialize, hsync]
    cases sync
    · rw [htagf]
      simp [uintSerialize]
    · rw [htagt]
      simp [uintSerialize]
  · rw [crudSequenceSerialize, crudSequenceSerialize, hsync, hsync, htagf, htagt,
        hseq true false]
    simp only [uintSerialize]
    rw [drop_append_of_length 4 _ _ (toLE_length 4 _),
        drop_append_of_length 4 _ _ (toLE_length 4 _)]

/-- Claim C7, counterexample to the claim as stated: `Consistency.check`
accepts `AtLeast(-1)` — its body only tests `isinstance`, never the sign
of `i` — and `serialize` then emits the tag byte 2 followed by the
`int64` two's-complement bytes of `-1` onto the wire, so a negative
`AtLeast` is not detected as an argument error before bytes hit the
wire. -/
theorem claim_C7_counterexample :
    consistencyCheck (some (.atLeast (-1))) = true
  ∧ consistencySerialize (some (.atLeast (-1))) =
      [2, 255, 255, 255, 255, 255, 255, 255, 255] := by
  exact ⟨rfl, by decide⟩

/-- Claim C7 (amended): `Consistency.check` accepts every `AtLeast`
value regardless of the sign of `i`; any `i` within the `int64` packing
range — negative values included — passes `check`, is serialized onto the
wire as tag 2 plus its `int64` encoding, and parses back unchanged, so no
non-negativity invariant is enforced anywhere on the path. -/
theorem claim_C7_no_nonnegativity_check (i : Int)
    (hlo : -(2 ^ 63) ≤ i) (hhi : i < 2 ^ 63) :
    consistencyCheck (some (.atLeast i)) = true
  ∧ consistencySerialize (some (.atLeast i)) = 2 :: sintSerialize 8 i
  ∧ runRecv consistencyReceive (consistencySerialize (some (.atLeast i)) ++ []) =
      some (ConsistencyV.atLeast i, []) := by
  refine ⟨rfl, rfl, ?_⟩
  have h := runRecv_consistencyReceive (some (.atLeast i)) [] ?_
  · simpa using h
  · intro j hj
    have h1 : ConsistencyV.atLeast i = ConsistencyV.atLeast j := by
      injection hj
    have h2 : i = j := by injection h1
    subst h2
    exact ⟨hlo, hhi⟩

/-- Claim C7 witness: the amended statement evaluated at the negative
index `-5`. -/
theorem claim_C7_witness :
    consistencyCheck (some (.atLeast (-5))) = true
  ∧ consistencySerialize (some (.atLeast (-5))) = 2 :: sintSerialize 8 (-5)
  ∧ runRecv consistencyReceive
      (consistencySerialize (some (.atLeast (-5))) ++ []) =
        some (ConsistencyV.atLeast (-5), []) :=
  claim_C7_no_nonnegativity_check (-5) (by norm_num) (by norm_num)

/-- Claim C8: constructing the client configuration raises `ValueError`
whenever `tls_ca_cert` is given (a truthy path) while `tls` is false, or
`tls_cert` is given while `tls_ca_cert` is not; when neither violation
holds and every supplied certificate path is a file, construction
succeeds and stores the fields. -/
theorem claim_C8_tls_rule (isfile : String → Bool) (tls : Bool)
    (ca : Option String) (cert : Option (String × String)) :
    (optStrTruthy ca = true ∧ tls = false →
      configInit isfile tls ca cert = .error ())
  ∧ (optCertTruthy cert = true ∧ optStrTruthy ca = false →
      configInit isfile tls ca cert = .error ())
  ∧ (¬(optStrTruthy ca = true ∧ tls = false) →
      ¬(optCertTruthy cert = true ∧ optStrTruthy ca = false) →
      (∀ p, ca = some p → isfile p = true) →
      (∀ c k, cert = some (c, k) → isfile c = true ∧ isfile k = true) →
      configInit isfile tls ca cert = .ok ⟨tls, ca, cert⟩) := by
  refine ⟨?_, ?_, ?_⟩
  · rintro ⟨h1, h2⟩
    rw [configInit.eq_def, if_pos (by rw [h1, h2]; rfl)]
  · rintro ⟨h1, h2⟩
    rw [configInit.eq_def]
    by_cases hc : (optStrTruthy ca && !tls) = true
    · rw [if_pos hc]
    · rw [if_neg hc, if_pos (by rw [h1, h2]; rfl)]
  · intro hv1 hv2 hca hcert
    have hc1 : (optStrTruthy ca && !tls) = false := by
      cases h1 : optStrTruthy ca <;> cases h2 : tls <;> simp_all
    have hc2 : (optCertTruthy cert && !optStrTruthy ca) = false := by
      cases h1 : optCertTruthy cert <;> cases h2 : optStrTruthy ca <;> simp_all
    rw [configInit.eq_def, if_neg (by simp [hc1]), if_neg (by simp [hc2])]
    cases ca with
    | none =>
      cases cert with
      | none => rfl
      | some pr =>
        obtain ⟨c, k⟩ := pr
        obtain ⟨hcf, hkf⟩ := hcert c k rfl
        simp [hcf, hkf]
    | some p =>
      have hpf := hca p rfl
      cases cert with
      | none => simp [hpf]
      | some pr =>
        obtain ⟨c, k⟩ := pr
        obtain ⟨hcf, hkf⟩ := hcert c k rfl
        simp [hpf, hcf, hkf]

/-- Claim C8 witness: the rule evaluated on a CA-without-TLS violation, a
cert-without-CA violation, and a fully consistent configuration over a
file system where every path exists. -/
theorem claim_C8_witness :
    configInit (fun _ => true) false (some "ca.pem") none = .error ()
  ∧ configInit (fun _ => true) true none (some ("c.pem", "k.pem")) = .error ()
  ∧ configInit (fun _ => true) true (some "ca.pem") (some ("c.pem", "k.pem")) =
      .ok ⟨true, some "ca.pem", some ("c.pem", "k.pem")⟩ :=
  ⟨(claim_C8_tls_rule (fun _ => true) false (some "ca.pem") none).1
      ⟨by decide, rfl⟩,
   (claim_C8_tls_rule (fun _ => true) true none (some ("c.pem", "k.pem"))).2.1
      ⟨rfl, rfl⟩,
   (claim_C8_tls_rule (fun _ => true) true (some "ca.pem")
      (some ("c.pem", "k.pem"))).2.2 (by simp) (by decide)
      (fun p _ => rfl) (fun c k _ => ⟨rfl, rfl⟩)⟩

/-- Claim C9: when the steps list passed to the `Sequence` message holds
exactly one element that is itself a nested `Sequence` step, that step is
used directly as the payload tree (no second enclosing sequence), so the
message serializes identically to one built directly from it; any other
steps list is wrapped in exactly one enclosing sequence step, whose wire
form starts with tag 5. -/
theorem claim_C9_single_nested_sequence (l : List SeqStep) (sync : Bool) :
    crudSequenceInit [SeqStep.sequence l] sync = ⟨SeqStep.sequence l, sync⟩
  ∧ crudSequenceSerialize (crudSequenceInit [SeqStep.sequence l] sync) =
      crudSequenceSerialize ⟨SeqStep.sequence l, sync⟩
  ∧ (∀ steps : List SeqStep, (∀ l', steps ≠ [SeqStep.sequence l']) →
      crudSequenceInit steps sync = ⟨SeqStep.sequence steps, sync⟩)
  ∧ stepSerialize (SeqStep.sequence l) =
      uintSerialize 4 5 ++ (uintSerialize 4 l.length ++ stepsSerialize l) := by
  refine ⟨rfl, rfl, ?_, by simp [stepSerialize]⟩
  intro steps hns
  cases steps with
  | nil => rfl
  | cons s t =>
    cases t with
    | cons s2 t2 => cases s <;> rfl
    | nil =>
      cases s with
      | set k v => rfl
      | delete k => rfl
      | assertValue k v => rfl
      | assertExists k => rfl
      | replace k w => rfl
      | deletePfx p => rfl
      | sequence l' => exact absurd rfl (hns l')

/-- Claim C9 witness: the unwrapping evaluated on a singleton nested
sequence and the wrapping on a single `Set` step. -/
theorem claim_C9_witness :
    crudSequenceInit [SeqStep.sequence []] false = ⟨SeqStep.sequence [], false⟩
  ∧ crudSequenceInit [SeqStep.set [] []] false =
      ⟨SeqStep.sequence [SeqStep.set [] []], false⟩ :=
  ⟨(claim_C9_single_nested_sequence [] false).1,
   (claim_C9_single_nested_sequence [] false).2.2.1 [SeqStep.set [] []]
      (fun l' h => by simp at h)⟩

/-- Claim C10: after the string receiver parses a length prefix of 0 it
yields the empty string as its final result at once, issuing no further
byte request; after a positive length prefix `n` it issues exactly one
request, for `n` bytes, and yields them. -/
theorem claim_C10_string_receive_requests :
    (∀ rest : Bytes,
      traceRecv stringReceive (uintSerialize 4 0 ++ rest) = [4]
      ∧ runRecv stringReceive (uintSerialize 4 0 ++ rest) = some ([], rest))
  ∧ (∀ (n : Nat) (data rest : Bytes), 0 < n → n < 2 ^ 32 → data.length = n →
      traceRecv stringReceive (uintSerialize 4 n ++ (data ++ rest)) = [4, n]
      ∧ runRecv stringReceive (uintSerialize 4 n ++ (data ++ rest)) =
          some (data, rest)) := by
  have hsr : stringReceive = .request 4 (fun d =>
      if fromLE d = 0 then .result []
      else .request (fromLE d) (fun data => .result data)) := rfl
  constructor
  · intro rest
    have h40 : fromLE (toLE 4 0) = 0 := fromLE_toLE 4 0 (by norm_num)
    constructor
    · rw [hsr, uintSerialize, traceRecv_request 4 _ (toLE 4 0) rest (toLE_length 4 0)]
      simp [h40, traceRecv]
    · rw [hsr, uintSerialize, runRecv_request 4 _ (toLE 4 0) rest (toLE_length 4 0)]
      simp [h40, runRecv]
  · intro n data rest h0 h32 hd
    have h4n : fromLE (toLE 4 n) = n := fromLE_toLE 4 n (by norm_num; exact h32)
    have hne : n ≠ 0 := Nat.pos_iff_ne_zero.mp h0
    constructor
    · rw [hsr, uintSerialize,
          traceRecv_request 4 _ (toLE 4 n) (data ++ rest) (toLE_length 4 n)]
      simp only [h4n, if_neg hne]
      rw [traceRecv_request n _ data rest hd]
      simp [traceRecv]
    · rw [hsr, uintSerialize,
          runRecv_request 4 _ (toLE 4 n) (data ++ rest) (toLE_length 4 n)]
      simp only [h4n, if_neg hne]
      rw [runRecv_request n _ data rest hd]
      simp [runRecv]

/-- Claim C10 witness: the request discipline evaluated on a zero-length
and a length-2 string frame. -/
theorem claim_C10_witness :
    traceRecv stringReceive (uintSerialize 4 0 ++ [5]) = [4]
  ∧ runRecv stringReceive (uintSerialize 4 0 ++ [5]) = some ([], [5])
  ∧ traceRecv stringReceive (uintSerialize 4 2 ++ ([7, 8] ++ [9])) = [4, 2]
  ∧ runRecv stringReceive (uintSerialize 4 2 ++ ([7, 8] ++ [9])) =
      some ([7, 8], [9]) :=
  ⟨(claim_C10_string_receive_requests.1 [5]).1,
   (claim_C10_string_receive_requests.1 [5]).2,
   (claim_C10_string_receive_requests.2 2 [7, 8] [9] (by norm_num)
      (by norm_num) rfl).1,
   (claim_C10_string_receive_requests.2 2 [7, 8] [9] (by norm_num)
      (by norm_num) rfl).2⟩

end Pyrakoon
